import Mathlib

/-!
# ne-utils: `tuntap_setup`

A shallow embedding of `neutils/src/tuntap.c`.  The file holds two
mutually exclusive variants of `tuntap_setup`:

* the Linux variant (the branch taken when `__APPLE__` is not defined),
  which turns an open descriptor into a TUN/TAP interface through one
  `ioctl(fd, TUNSETIFF, &ifr)`;
* the kernel-control variant (`__APPLE__` branch), which opens a control
  socket, resolves the utun control id and connects to a numbered unit.

Bytes are natural numbers, a byte buffer is a `List Nat` whose length is the
capacity of the buffer, and an access outside a buffer is the explicit
outcome `Outcome.undefined`.  System calls are parameters of the model: the
functions below are total in the results the operating system may give.
-/

set_option autoImplicit false

namespace NeUtils

/-! ## C library fragments used by both variants -/

/-- How a call of a C function ends: it returns a value, it stops in a
failed `assert`, or it touches memory outside a buffer. -/
inductive Outcome where
  | returned (value : Int)
  | assertFailed
  | undefined
  deriving DecidableEq, Repr

/-- Second loop of `strncpy`: `k` zero bytes are written through the
destination pointer.  `none` is a write past the end of the destination. -/
def padZero : List Nat → Nat → Option (List Nat)
  | d, 0 => some d
  | [], _ + 1 => none
  | _ :: d, k + 1 => (padZero d k).map (fun t => 0 :: t)

/-- C `strncpy(dest, src, n)`, the lists being what the two pointers see:
bytes are copied until `n` are written or a NUL has been copied, then the
remainder of the `n` bytes is filled with zeros.  The result is the
destination buffer afterwards; `none` is a read past the end of `src` or a
write past the end of `dest`. -/
def strncpy : List Nat → List Nat → Nat → Option (List Nat)
  | d, _, 0 => some d
  | [], _, _ + 1 => none
  | _ :: _, [], _ + 1 => none
  | _ :: d, c :: s, k + 1 =>
    if c = 0 then (padZero d k).map (fun t => 0 :: t)
    else (strncpy d s k).map (fun t => c :: t)

/-- The string a C reader finds in a buffer: the bytes before the first NUL. -/
def cstr (buf : List Nat) : List Nat := buf.takeWhile (fun c => c ≠ 0)

/-- C `strlen` of the string held in a buffer (the whole capacity when the
buffer holds no NUL). -/
def strlen (buf : List Nat) : Nat := (cstr buf).length

/-! ## Linux variant -/

namespace Linux

/-- Size of an interface name field, `IFNAMSIZ` of `<linux/if.h>`. -/
def IFNAMSIZ : Nat := 16

/-- Flag `IFF_TUN` of `<linux/if_tun.h>`. -/
def IFF_TUN : Nat := 0x0001

/-- Flag `IFF_TAP` of `<linux/if_tun.h>`. -/
def IFF_TAP : Nat := 0x0002

/-- Flag `IFF_NO_PI` of `<linux/if_tun.h>`. -/
def IFF_NO_PI : Nat := 0x1000

/-- The fields of `struct ifreq` the function touches. -/
structure Ifreq where
  ifr_name : List Nat
  ifr_flags : Nat
  deriving DecidableEq, Repr

/-- Content of the 16-byte `ifr_name` field as the kernel leaves it. -/
structure NameField where
  bytes : List Nat
  size_eq : bytes.length = IFNAMSIZ

/-- What `ioctl(fd, TUNSETIFF, &ifr)` answers: the integer result and the
name field of the record after the call. -/
abbrev Ioctl := Int → Ifreq → Int × NameField

/-- State after a call of `tuntap_setup`: how it ended, the caller's name
buffer, and the configuration requests issued, in order. -/
structure Result where
  outcome : Outcome
  name : List Nat
  requests : List (Int × Ifreq)

/-- The `switch (mode)` of `tuntap_setup`: the flags after it, `none` for
the `default: assert(0)` branch. -/
def modeFlags (mode : Int) : Option Nat :=
  if mode = 1 then some IFF_TUN
  else if mode = 2 then some IFF_TAP
  else none

/-- Linux `tuntap_setup(fd, name, mode, packet_info)`. -/
def tuntap_setup (ioctl : Ioctl) (fd : Int) (name : List Nat)
    (mode packet_info : Int) : Result :=
  -- memset(&ifr, 0, sizeof ifr)
  let ifr0 : Ifreq := { ifr_name := List.replicate IFNAMSIZ 0, ifr_flags := 0 }
  match modeFlags mode with
  | none => { outcome := .assertFailed, name := name, requests := [] }
  | some fl =>
    let ifr1 : Ifreq := { ifr0 with ifr_flags := fl }
    -- if (!packet_info) ifr.ifr_flags |= IFF_NO_PI
    let ifr2 : Ifreq :=
      if packet_info = 0 then { ifr1 with ifr_flags := ifr1.ifr_flags ||| IFF_NO_PI }
      else ifr1
    -- strncpy(ifr.ifr_name, name, IFNAMSIZ - 1)
    match strncpy ifr2.ifr_name name (IFNAMSIZ - 1) with
    | none => { outcome := .undefined, name := name, requests := [] }
    | some nm =>
      let ifr3 : Ifreq := { ifr2 with ifr_name := nm }
      let reply := ioctl fd ifr3
      let ioresult := reply.1
      if ioresult < 0 then
        { outcome := .returned ioresult, name := name, requests := [(fd, ifr3)] }
      else
        -- strncpy(name, ifr.ifr_name, IFNAMSIZ < 32 ? IFNAMSIZ : 32)
        match strncpy name reply.2.bytes (if IFNAMSIZ < 32 then IFNAMSIZ else 32) with
        | none => { outcome := .undefined, name := name, requests := [(fd, ifr3)] }
        | some name1 =>
          -- name[32] = 0
          if 32 < name1.length then
            { outcome := .returned 0, name := name1.set 32 0, requests := [(fd, ifr3)] }
          else
            { outcome := .undefined, name := name1, requests := [(fd, ifr3)] }

/-- Closed form of the record `tuntap_setup` hands to the configuration
request for a valid mode; `Linux.requests_eq` proves that it is the record
of the model. -/
def requestRecord (name : List Nat) (mode packet_info : Int) : Ifreq :=
  { ifr_name := name.take (min (strlen name) 15)
      ++ List.replicate (16 - min (strlen name) 15) 0
    ifr_flags :=
      if packet_info = 0 then (if mode = 1 then IFF_TUN else IFF_TAP) ||| IFF_NO_PI
      else (if mode = 1 then IFF_TUN else IFF_TAP) }

/-- A kernel that accepts every request and names the interface "tun0". -/
def kernelTun0 : Ioctl :=
  fun _ _ => (0, ⟨[116, 117, 110, 48, 0, 0, 0, 0, 0, 0, 0, 0, 0, 0, 0, 0], rfl⟩)

/-- A kernel that refuses every request with `-16` and leaves the name
field as it was sent. -/
def kernelBusy : Ioctl :=
  fun _ req => (-16, ⟨(req.ifr_name ++ List.replicate IFNAMSIZ 0).take IFNAMSIZ,
    by simp [IFNAMSIZ]⟩)

/-- A kernel that accepts every request and fills the whole name field
with the letter `x`, leaving no NUL in it. -/
def kernelFull : Ioctl :=
  fun _ _ => (7, ⟨List.replicate 16 120, rfl⟩)

/-- A 40-byte name buffer holding forty letters `A` and no NUL. -/
def longName : List Nat := List.replicate 40 65

end Linux

/-! ## Kernel-control variant -/

namespace Apple

/-- Name length bound `MAX_KCTL_NAME` of `<sys/kern_control.h>`. -/
def MAX_KCTL_NAME : Nat := 96

/-- The string literal `UTUN_CONTROL_NAME` of `<net/if_utun.h>`,
"com.apple.net.utun_control", with its terminating NUL. -/
def UTUN_CONTROL_NAME : List Nat :=
  [99, 111, 109, 46, 97, 112, 112, 108, 101, 46, 110, 101, 116, 46,
   117, 116, 117, 110, 95, 99, 111, 110, 116, 114, 111, 108, 0]

/-- Socket domain `PF_SYSTEM` of `<sys/socket.h>`. -/
def PF_SYSTEM : Nat := 32

/-- Socket type `SOCK_DGRAM` of `<sys/socket.h>`. -/
def SOCK_DGRAM : Nat := 2

/-- Protocol `SYSPROTO_CONTROL` of `<sys/sys_domain.h>`. -/
def SYSPROTO_CONTROL : Nat := 2

/-- Address family `AF_SYSTEM` of `<sys/socket.h>`. -/
def AF_SYSTEM : Nat := 32

/-- Address tag `AF_SYS_CONTROL` of `<sys/sys_domain.h>`. -/
def AF_SYS_CONTROL : Nat := 2

/-- The value of `sizeof (struct sockaddr_ctl)`. -/
def SIZEOF_SOCKADDR_CTL : Nat := 32

/-- The record `struct ctl_info`. -/
structure CtlInfo where
  ctl_id : Nat
  ctl_name : List Nat
  deriving DecidableEq, Repr

/-- The fields of `struct sockaddr_ctl` the function assigns (`sc_reserved`
is left as found on the stack and is not modelled). -/
structure SockaddrCtl where
  sc_len : Nat
  sc_family : Nat
  ss_sysaddr : Nat
  sc_id : Nat
  sc_unit : Nat
  deriving DecidableEq, Repr

/-- One system call, with its arguments and its result. -/
inductive Event where
  | socket (domain kind protocol : Nat) (result : Int)
  | ioctl (fd : Int) (info : CtlInfo) (result : Int)
  | connect (fd : Int) (addr : SockaddrCtl) (result : Int)
  | close (fd : Int)
  deriving DecidableEq, Repr

/-- The operating system as the function sees it: the set of open handles,
the handles that are connected, and the system calls made so far. -/
structure OS where
  handles : Finset Int
  connected : Finset Int
  log : List Event

/-- What the operating system answers to the three calls that can fail:
the result of `socket`, the result of the `CTLIOCGINFO` request with the
record it leaves, and the result of `connect`. -/
structure Env where
  socket : Int
  resolve : Int → CtlInfo → Int × CtlInfo
  connect : Int → SockaddrCtl → Int

/-- Effect of `socket(domain, kind, protocol)` answering `r`: a non-negative
answer is a handle that is now open. -/
def OS.socket (os : OS) (domain kind protocol : Nat) (r : Int) : OS :=
  { os with
    handles := if 0 ≤ r then insert r os.handles else os.handles
    log := os.log ++ [Event.socket domain kind protocol r] }

/-- Effect of `ioctl(fd, CTLIOCGINFO, &info)` answering `r`: the handles
stay as they are. -/
def OS.ioctl (os : OS) (fd : Int) (info : CtlInfo) (r : Int) : OS :=
  { os with log := os.log ++ [Event.ioctl fd info r] }

/-- Effect of `connect(fd, &addr, len)` answering `r`: with a non-negative
answer the handle is connected. -/
def OS.connect (os : OS) (fd : Int) (addr : SockaddrCtl) (r : Int) : OS :=
  { os with
    connected := if 0 ≤ r then insert fd os.connected else os.connected
    log := os.log ++ [Event.connect fd addr r] }

/-- Effect of `close(fd)`: the handle is no longer open. -/
def OS.close (os : OS) (fd : Int) : OS :=
  { handles := os.handles.erase fd
    connected := os.connected.erase fd
    log := os.log ++ [Event.close fd] }

/-- State after a call of `tuntap_setup`: how it ended and the operating
system afterwards. -/
structure Result where
  outcome : Outcome
  os : OS

/-- Kernel-control `tuntap_setup(num)`; `num` is a `u_int32_t`. -/
def tuntap_setup (env : Env) (os : OS) (num : Nat) : Result :=
  -- fd = socket(PF_SYSTEM, SOCK_DGRAM, SYSPROTO_CONTROL)
  let fd := env.socket
  let os1 := os.socket PF_SYSTEM SOCK_DGRAM SYSPROTO_CONTROL fd
  if fd < 0 then { outcome := .returned fd, os := os1 }
  else
    -- memset(&info, 0, sizeof (info))
    let info0 : CtlInfo := { ctl_id := 0, ctl_name := List.replicate MAX_KCTL_NAME 0 }
    -- strncpy(info.ctl_name, UTUN_CONTROL_NAME, strlen(UTUN_CONTROL_NAME))
    match strncpy info0.ctl_name UTUN_CONTROL_NAME (strlen UTUN_CONTROL_NAME) with
    | none => { outcome := .undefined, os := os1 }
    | some nm =>
      let info1 : CtlInfo := { info0 with ctl_name := nm }
      -- err = ioctl(fd, CTLIOCGINFO, &info)
      let reply := env.resolve fd info1
      let err := reply.1
      let info2 := reply.2
      let os2 := os1.ioctl fd info1 err
      if err < 0 then { outcome := .returned err, os := os2.close fd }
      else
        let addr : SockaddrCtl :=
          { sc_id := info2.ctl_id
            sc_len := SIZEOF_SOCKADDR_CTL
            sc_family := AF_SYSTEM
            ss_sysaddr := AF_SYS_CONTROL
            sc_unit := (num + 1) % 2 ^ 32 }
        -- err = connect(fd, (struct sockaddr*)&addr, sizeof(addr))
        let err2 := env.connect fd addr
        let os3 := os2.connect fd addr err2
        if err2 < 0 then { outcome := .returned err2, os := os3.close fd }
        else { outcome := .returned fd, os := os3 }

/-- Closed form of the record handed to the `CTLIOCGINFO` request: id 0 and
the 26 letters of the control name in a zeroed field of 96 bytes;
`Apple.ctl_name_copy` proves that it is the record of the model. -/
def utunInfo : CtlInfo :=
  { ctl_id := 0
    ctl_name := UTUN_CONTROL_NAME.take 26 ++ List.replicate 70 0 }

/-- Closed form of the address `tuntap_setup` hands to `connect` for the
resolved record `info` and the unit number `num`. -/
def controlAddr (info : CtlInfo) (num : Nat) : SockaddrCtl :=
  { sc_id := info.ctl_id
    sc_len := SIZEOF_SOCKADDR_CTL
    sc_family := AF_SYSTEM
    ss_sysaddr := AF_SYS_CONTROL
    sc_unit := (num + 1) % 2 ^ 32 }

/-- An operating system with the three standard streams open. -/
def os0 : OS := { handles := {0, 1, 2}, connected := ∅, log := [] }

/-- Every call succeeds: the socket is handle 3 and the control id is 7. -/
def envOk : Env :=
  { socket := 3
    resolve := fun _ info => (0, { info with ctl_id := 7 })
    connect := fun _ _ => 0 }

/-- The socket opens as handle 3 and the control family is unknown. -/
def envNoControl : Env :=
  { socket := 3
    resolve := fun _ info => (-1, info)
    connect := fun _ _ => 0 }

/-- The socket opens as handle 3, the control id is 7, the unit is in use. -/
def envInUse : Env :=
  { socket := 3
    resolve := fun _ info => (0, { info with ctl_id := 7 })
    connect := fun _ _ => -1 }

/-- No socket can be opened. -/
def envNoSocket : Env :=
  { socket := -1
    resolve := fun _ info => (0, { info with ctl_id := 7 })
    connect := fun _ _ => 0 }

end Apple

end NeUtils


namespace NeUtils

/-! ## Facts about the C library fragments -/

theorem cstr_cons_zero (s : List Nat) : cstr (0 :: s) = [] := by
  simp [cstr]

theorem cstr_cons_ne {c : Nat} (h : c ≠ 0) (s : List Nat) : cstr (c :: s) = c :: cstr s := by
  simp [cstr, List.takeWhile_cons, h]

theorem strlen_cons_zero (s : List Nat) : strlen (0 :: s) = 0 := by
  simp [strlen, cstr_cons_zero]

theorem strlen_cons_ne {c : Nat} (h : c ≠ 0) (s : List Nat) :
    strlen (c :: s) = strlen s + 1 := by
  simp [strlen, cstr_cons_ne h]

theorem strlen_le_length (s : List Nat) : strlen s ≤ s.length := by
  induction s with
  | nil => simp [strlen, cstr]
  | cons c s ih =>
    by_cases h : c = 0
    · subst h; simp [strlen_cons_zero]
    · rw [strlen_cons_ne h]; simp; exact ih

theorem padZero_eq (k : Nat) : ∀ d : List Nat, k ≤ d.length →
    padZero d k = some (List.replicate k 0 ++ d.drop k) := by
  induction k with
  | zero => intro d _; cases d <;> simp [padZero]
  | succ k ih =>
    intro d h
    cases d with
    | nil => simp at h
    | cons x d =>
      have hk : k ≤ d.length := by simpa using h
      simp [padZero, ih d hk, List.replicate_succ]

/-- What `strncpy` leaves in the destination when all its accesses are
inside the two buffers. -/
theorem strncpy_eq (n : Nat) : ∀ d s : List Nat, n ≤ d.length →
    (n ≤ s.length ∨ 0 ∈ s) →
    strncpy d s n = some (s.take (min (strlen s) n)
      ++ List.replicate (n - min (strlen s) n) 0 ++ d.drop n) := by
  induction n with
  | zero => intro d s _ _; cases d <;> simp [strncpy]
  | succ k ih =>
    intro d s hd hs
    cases d with
    | nil => simp at hd
    | cons x d =>
      have hk : k ≤ d.length := by simpa using hd
      cases s with
      | nil => simp at hs
      | cons c s =>
        by_cases hc : c = 0
        · subst hc
          simp [strncpy, padZero_eq k d hk, strlen_cons_zero, List.replicate_succ]
        · have hs2 : k ≤ s.length ∨ 0 ∈ s := by
            rcases hs with h | h
            · left; simpa using h
            · right
              rcases List.mem_cons.1 h with h0 | h0
              · exact absurd h0.symm hc
              · exact h0
          have hmin : min (strlen s + 1) (k + 1) = min (strlen s) k + 1 := by omega
          simp [strncpy, hc, ih d s hk hs2, strlen_cons_ne hc, hmin]

theorem strlen_lt_of_mem : ∀ s : List Nat, 0 ∈ s → strlen s < s.length := by
  intro s
  induction s with
  | nil => intro h; simp at h
  | cons c s ih =>
    intro h
    by_cases hc : c = 0
    · subst hc; simp [strlen_cons_zero]
    · rw [strlen_cons_ne hc]
      rcases List.mem_cons.1 h with h0 | h0
      · exact absurd h0.symm hc
      · have := ih h0
        simp only [List.length_cons]; omega

theorem take_strlen (s : List Nat) : s.take (strlen s) = cstr s := by
  induction s with
  | nil => simp [strlen, cstr]
  | cons c s ih =>
    by_cases hc : c = 0
    · subst hc; simp [strlen_cons_zero, cstr_cons_zero]
    · rw [strlen_cons_ne hc, cstr_cons_ne hc, List.take_succ_cons, ih]

theorem cstr_append_zero (s t : List Nat) : cstr (cstr s ++ 0 :: t) = cstr s := by
  induction s with
  | nil => simp [cstr]
  | cons c s ih =>
    by_cases hc : c = 0
    · subst hc; simp [cstr_cons_zero]
    · rw [cstr_cons_ne hc, List.cons_append, cstr_cons_ne hc, ih]

/-- Writing a NUL at or after the end of the string leaves the string as it is. -/
theorem cstr_set_zero : ∀ (l : List Nat) (i : Nat), strlen l ≤ i →
    cstr (l.set i 0) = cstr l := by
  intro l
  induction l with
  | nil => intro i _; simp
  | cons c l ih =>
    intro i h
    by_cases hc : c = 0
    · subst hc
      cases i with
      | zero => simp [cstr_cons_zero]
      | succ i => simp [List.set, cstr_cons_zero]
    · rw [strlen_cons_ne hc] at h
      cases i with
      | zero => omega
      | succ i =>
        have hi : strlen l ≤ i := by omega
        simp only [List.set]
        rw [cstr_cons_ne hc, cstr_cons_ne hc, ih i hi]

/-- A NUL at index `i` bounds the length of the string by `i`. -/
theorem strlen_le_of_zero_at : ∀ (l : List Nat) (i : Nat), l[i]? = some 0 →
    strlen l ≤ i := by
  intro l
  induction l with
  | nil => intro i h; simp at h
  | cons c l ih =>
    intro i h
    by_cases hc : c = 0
    · subst hc; simp [strlen_cons_zero]
    · cases i with
      | zero => simp at h; exact absurd h hc
      | succ i =>
        rw [strlen_cons_ne hc]
        have := ih i (by simpa using h)
        omega

theorem zero_mem_of_zero_at (l : List Nat) (i : Nat) (h : l[i]? = some 0) : 0 ∈ l := by
  rw [List.getElem?_eq_some] at h
  obtain ⟨hi, h⟩ := h
  exact h ▸ List.getElem_mem hi

/-- The string of a buffer cut after `n` bytes is the string cut after `n` bytes. -/
theorem cstr_take : ∀ (s : List Nat) (n : Nat),
    cstr (s.take n) = s.take (min (strlen s) n) := by
  intro s
  induction s with
  | nil => intro n; simp [cstr]
  | cons c s ih =>
    intro n
    cases n with
    | zero => simp [cstr]
    | succ k =>
      by_cases hc : c = 0
      · subst hc; simp [cstr_cons_zero, strlen_cons_zero]
      · have hmin : min (strlen s + 1) (k + 1) = min (strlen s) k + 1 := by omega
        rw [List.take_succ_cons, cstr_cons_ne hc, strlen_cons_ne hc, hmin,
          List.take_succ_cons, ih k]

theorem strlen_take (s : List Nat) (n : Nat) : strlen (s.take n) = min (strlen s) n := by
  have h := strlen_le_length s
  unfold strlen at h ⊢
  rw [cstr_take, List.length_take]
  unfold strlen
  omega

namespace Linux

/-! ## Linux variant: the steps of `tuntap_setup` -/

/-- The copy of the requested name into the zeroed request record. -/
theorem copy_in_eq (name : List Nat) (hn : 15 ≤ name.length ∨ 0 ∈ name) :
    strncpy (List.replicate IFNAMSIZ 0) name (IFNAMSIZ - 1)
      = some (name.take (min (strlen name) 15)
          ++ List.replicate (16 - min (strlen name) 15) 0) := by
  have h := strncpy_eq 15 (List.replicate 16 0) name (by simp) hn
  have e : 16 - min (strlen name) 15 = (15 - min (strlen name) 15) + 1 := by omega
  have d : List.drop 15 (List.replicate 16 0) = [0] := by decide
  rw [d] at h
  simp only [IFNAMSIZ]
  rw [h, e, List.replicate_succ', List.append_assoc]

theorem modeFlags_valid {mode : Int} (h : mode = 1 ∨ mode = 2) :
    modeFlags mode = some (if mode = 1 then IFF_TUN else IFF_TAP) := by
  rcases h with h | h <;> subst h <;> simp [modeFlags]

/-- For a valid mode and a readable name the function is the configuration
request on `requestRecord` followed by the copy back into the caller's buffer. -/
theorem attach_eq (ioctl : Ioctl) (fd : Int) (name : List Nat) (mode packet_info : Int)
    (hmode : mode = 1 ∨ mode = 2) (hname : 15 ≤ name.length ∨ 0 ∈ name) :
    tuntap_setup ioctl fd name mode packet_info =
      if (ioctl fd (requestRecord name mode packet_info)).1 < 0 then
        { outcome := .returned (ioctl fd (requestRecord name mode packet_info)).1
          name := name
          requests := [(fd, requestRecord name mode packet_info)] }
      else
        match strncpy name (ioctl fd (requestRecord name mode packet_info)).2.bytes 16 with
        | none =>
          { outcome := .undefined, name := name
            requests := [(fd, requestRecord name mode packet_info)] }
        | some name1 =>
          if 32 < name1.length then
            { outcome := .returned 0, name := name1.set 32 0
              requests := [(fd, requestRecord name mode packet_info)] }
          else
            { outcome := .undefined, name := name1
              requests := [(fd, requestRecord name mode packet_info)] } := by
  have h16 : (if IFNAMSIZ < 32 then IFNAMSIZ else 32) = 16 := by decide
  unfold tuntap_setup
  simp only [modeFlags_valid hmode, h16]
  by_cases hp : packet_info = 0
  · simp only [hp, if_true, copy_in_eq name hname, requestRecord]
  · simp only [hp, if_false, copy_in_eq name hname, requestRecord]

/-- The requests issued for a valid mode and a readable name: exactly one,
carrying `requestRecord`. -/
theorem requests_eq (ioctl : Ioctl) (fd : Int) (name : List Nat) (mode packet_info : Int)
    (hmode : mode = 1 ∨ mode = 2) (hname : 15 ≤ name.length ∨ 0 ∈ name) :
    (tuntap_setup ioctl fd name mode packet_info).requests
      = [(fd, requestRecord name mode packet_info)] := by
  rw [attach_eq ioctl fd name mode packet_info hmode hname]
  split
  · rfl
  · split
    · rfl
    · split <;> rfl

/-- The failure path for a valid mode and a readable name. -/
theorem setup_failure (ioctl : Ioctl) (fd : Int) (name : List Nat) (mode packet_info : Int)
    (hmode : mode = 1 ∨ mode = 2) (hname : 15 ≤ name.length ∨ 0 ∈ name)
    (hneg : (ioctl fd (requestRecord name mode packet_info)).1 < 0) :
    tuntap_setup ioctl fd name mode packet_info =
      { outcome := .returned (ioctl fd (requestRecord name mode packet_info)).1
        name := name
        requests := [(fd, requestRecord name mode packet_info)] } := by
  rw [attach_eq ioctl fd name mode packet_info hmode hname, if_pos hneg]

/-- The success path for a valid mode and a buffer of the documented capacity. -/
theorem setup_success (ioctl : Ioctl) (fd : Int) (name : List Nat) (mode packet_info : Int)
    (hmode : mode = 1 ∨ mode = 2) (hcap : 33 ≤ name.length)
    (hpos : ¬ (ioctl fd (requestRecord name mode packet_info)).1 < 0) :
    tuntap_setup ioctl fd name mode packet_info =
      { outcome := .returned 0
        name := ((ioctl fd (requestRecord name mode packet_info)).2.bytes.take
            (min (strlen (ioctl fd (requestRecord name mode packet_info)).2.bytes) 16)
          ++ List.replicate
            (16 - min (strlen (ioctl fd (requestRecord name mode packet_info)).2.bytes) 16) 0
          ++ name.drop 16).set 32 0
        requests := [(fd, requestRecord name mode packet_info)] } := by
  have hname : 15 ≤ name.length ∨ 0 ∈ name := Or.inl (by omega)
  have hk := (ioctl fd (requestRecord name mode packet_info)).2.size_eq
  have hcopy := strncpy_eq 16 name (ioctl fd (requestRecord name mode packet_info)).2.bytes
    (by omega) (Or.inl (by rw [hk]; decide))
  rw [attach_eq ioctl fd name mode packet_info hmode hname, if_neg hpos, hcopy]
  have hlen : 32 < ((ioctl fd (requestRecord name mode packet_info)).2.bytes.take
            (min (strlen (ioctl fd (requestRecord name mode packet_info)).2.bytes) 16)
          ++ List.replicate
            (16 - min (strlen (ioctl fd (requestRecord name mode packet_info)).2.bytes) 16) 0
          ++ name.drop 16).length := by
    have := strlen_le_length (ioctl fd (requestRecord name mode packet_info)).2.bytes
    simp only [List.length_append, List.length_take, List.length_replicate, List.length_drop]
    rw [hk] at this ⊢
    simp only [IFNAMSIZ] at this ⊢
    omega
  simp only [hlen, if_true]

/-- The request record is a function of the first 15 bytes of the name. -/
theorem requestRecord_take (name : List Nat) (mode packet_info : Int) :
    requestRecord (name.take 15) mode packet_info = requestRecord name mode packet_info := by
  have h1 : min (strlen (name.take 15)) 15 = min (strlen name) 15 := by
    rw [strlen_take]; omega
  have h2 : List.take (min (strlen name) 15) (name.take 15)
      = List.take (min (strlen name) 15) name := by
    rw [List.take_take]
    congr 1
    omega
  simp only [requestRecord, h1, h2]

/-- The 16 bytes the copy back writes: the kernel's name up to its NUL, then zeros. -/
theorem copy_out_prefix_length (K : List Nat) :
    (K.take (min (strlen K) 16) ++ List.replicate (16 - min (strlen K) 16) 0).length
      = 16 := by
  have h := strlen_le_length K
  simp only [List.length_append, List.length_take, List.length_replicate]
  omega

/-- The caller's buffer after the copy back and the write of `name[32]`:
its length, its bytes from index 33 on, its byte at index 32. -/
theorem copy_out_frame (K name : List Nat) (hcap : 33 ≤ name.length) :
    ((K.take (min (strlen K) 16) ++ List.replicate (16 - min (strlen K) 16) 0
        ++ name.drop 16).set 32 0).length = name.length ∧
    (∀ i : Nat, 33 ≤ i →
      ((K.take (min (strlen K) 16) ++ List.replicate (16 - min (strlen K) 16) 0
        ++ name.drop 16).set 32 0)[i]? = name[i]?) ∧
    ((K.take (min (strlen K) 16) ++ List.replicate (16 - min (strlen K) 16) 0
        ++ name.drop 16).set 32 0)[32]? = some 0 := by
  have hP := copy_out_prefix_length K
  have hL : (K.take (min (strlen K) 16) ++ List.replicate (16 - min (strlen K) 16) 0
        ++ name.drop 16).length = name.length := by
    rw [List.length_append, hP, List.length_drop]
    omega
  refine ⟨by rw [List.length_set, hL], ?_, ?_⟩
  · intro i hi
    rw [List.getElem?_set_ne (by omega), List.getElem?_append_right (by omega), hP,
      List.getElem?_drop]
    congr 1
    omega
  · exact List.getElem?_set_self (by omega)

/-- The string in the caller's buffer after the copy back, when the kernel's
name field holds a NUL. -/
theorem copy_out_cstr (K name : List Nat) (hK : K.length = 16) (h0 : 0 ∈ K) :
    cstr ((K.take (min (strlen K) 16) ++ List.replicate (16 - min (strlen K) 16) 0
        ++ name.drop 16).set 32 0) = cstr K := by
  have hlt := strlen_lt_of_mem K h0
  have hm : min (strlen K) 16 = strlen K := by omega
  have hr : 16 - strlen K = (15 - strlen K) + 1 := by omega
  have hshape : K.take (min (strlen K) 16) ++ List.replicate (16 - min (strlen K) 16) 0
        ++ name.drop 16
      = cstr K ++ 0 :: (List.replicate (15 - strlen K) 0 ++ name.drop 16) := by
    rw [hm, take_strlen, hr, List.replicate_succ]
    simp
  rw [hshape]
  have hc := cstr_append_zero K (List.replicate (15 - strlen K) 0 ++ name.drop 16)
  have hs : strlen (cstr K ++ 0 :: (List.replicate (15 - strlen K) 0 ++ name.drop 16))
      ≤ 32 := by
    have e : strlen (cstr K ++ 0 :: (List.replicate (15 - strlen K) 0 ++ name.drop 16))
        = strlen K := by
      show (cstr (cstr K ++ 0 :: (List.replicate (15 - strlen K) 0 ++ name.drop 16))).length
        = (cstr K).length
      rw [hc]
    omega
  rw [cstr_set_zero _ 32 hs, hc]

/-! ## Linux variant: the claims -/

/-- C1 (name copy-in). For a valid mode and every name buffer that holds a
NUL or at least 15 bytes (in particular every buffer of the documented
capacity, whatever its content), exactly one request is issued; the name
field of its record is the first `min (strlen name) 15` bytes of the input
followed by zero bytes only, 16 bytes in all, with a zero at index 15; and
at most 15 input bytes are read: every buffer with the same first 15 bytes,
the buffer cut after 15 bytes included, gives the same record. -/
theorem copy_in_name_field (ioctl : Ioctl) (fd : Int) (name : List Nat)
    (mode packet_info : Int) (hmode : mode = 1 ∨ mode = 2)
    (hname : 15 ≤ name.length ∨ 0 ∈ name) :
    ∃ ifr : Ifreq,
      (tuntap_setup ioctl fd name mode packet_info).requests = [(fd, ifr)] ∧
      ifr.ifr_name = name.take (min (strlen name) 15)
        ++ List.replicate (16 - min (strlen name) 15) 0 ∧
      ifr.ifr_name.length = 16 ∧
      ifr.ifr_name[15]? = some 0 ∧
      (tuntap_setup ioctl fd (name.take 15) mode packet_info).requests = [(fd, ifr)] ∧
      ∀ other : List Nat, other.take 15 = name.take 15 →
        (tuntap_setup ioctl fd other mode packet_info).requests = [(fd, ifr)] := by
  have hle := strlen_le_length name
  have hlen : (name.take (min (strlen name) 15)
      ++ List.replicate (16 - min (strlen name) 15) 0).length = 16 := by
    simp only [List.length_append, List.length_take, List.length_replicate]
    omega
  have hother : ∀ other : List Nat, other.take 15 = name.take 15 →
      (tuntap_setup ioctl fd other mode packet_info).requests
        = [(fd, requestRecord name mode packet_info)] := by
    intro other ho
    have hname2 : 15 ≤ other.length ∨ 0 ∈ other := by
      rcases hname with h | h
      · left
        have hl := congrArg List.length ho
        simp only [List.length_take] at hl
        omega
      · by_cases h15 : 15 ≤ name.length
        · left
          have hl := congrArg List.length ho
          simp only [List.length_take] at hl
          omega
        · right
          have hn : name.take 15 = name := List.take_of_length_le (by omega)
          rw [hn] at ho
          rw [← ho] at h
          exact List.mem_of_mem_take h
    rw [requests_eq ioctl fd other mode packet_info hmode hname2,
      ← requestRecord_take other, ho, requestRecord_take name]
  refine ⟨requestRecord name mode packet_info,
    requests_eq ioctl fd name mode packet_info hmode hname, rfl, hlen, ?_,
    hother (name.take 15) (by rw [List.take_take]; simp), hother⟩
  show (name.take (min (strlen name) 15)
      ++ List.replicate (16 - min (strlen name) 15) 0)[15]? = some 0
  rw [List.getElem?_append_right (by simp only [List.length_take]; omega),
    List.getElem?_replicate, if_pos]
  simp only [List.length_take]
  omega

/-- Witness of C1 on a 40-byte buffer that holds no NUL. -/
theorem copy_in_name_field_witness :
    ((1 : Int) = 1 ∨ (1 : Int) = 2) ∧ (15 ≤ longName.length ∨ 0 ∈ longName) ∧
    ∃ ifr : Ifreq,
      (tuntap_setup kernelTun0 3 longName 1 0).requests = [(3, ifr)] ∧
      ifr.ifr_name = longName.take (min (strlen longName) 15)
        ++ List.replicate (16 - min (strlen longName) 15) 0 ∧
      ifr.ifr_name.length = 16 ∧
      ifr.ifr_name[15]? = some 0 ∧
      (tuntap_setup kernelTun0 3 (longName.take 15) 1 0).requests = [(3, ifr)] ∧
      ∀ other : List Nat, other.take 15 = longName.take 15 →
        (tuntap_setup kernelTun0 3 other 1 0).requests = [(3, ifr)] :=
  ⟨by decide, by decide,
    copy_in_name_field kernelTun0 3 longName 1 0 (by decide) (by decide)⟩

/-- C5 (flag composition). For a valid mode, every `packet_info` and a
readable name, the flags of the one request record are `IFF_TUN` for mode 1
and `IFF_TAP` for mode 2, or-ed with `IFF_NO_PI` exactly when `packet_info`
is 0: the value is one of the four numbers, the `IFF_NO_PI` bit (bit 12) is
set if and only if `packet_info = 0`, and every bit is a bit of the mode
flag or, when `packet_info = 0`, of `IFF_NO_PI`. -/
theorem request_flags (ioctl : Ioctl) (fd : Int) (name : List Nat)
    (mode packet_info : Int) (hmode : mode = 1 ∨ mode = 2)
    (hname : 15 ≤ name.length ∨ 0 ∈ name) :
    ∃ ifr : Ifreq,
      (tuntap_setup ioctl fd name mode packet_info).requests = [(fd, ifr)] ∧
      ifr.ifr_flags = ((if mode = 1 then IFF_TUN else IFF_TAP)
        ||| (if packet_info = 0 then IFF_NO_PI else 0)) ∧
      ifr.ifr_flags = (if mode = 1 then 1 else 2)
        + (if packet_info = 0 then 4096 else 0) ∧
      (ifr.ifr_flags &&& IFF_NO_PI = IFF_NO_PI ↔ packet_info = 0) ∧
      (ifr.ifr_flags.testBit 12 = true ↔ packet_info = 0) ∧
      ∀ i : Nat, ifr.ifr_flags.testBit i
        = ((if mode = 1 then IFF_TUN else IFF_TAP).testBit i
            || (decide (packet_info = 0) && IFF_NO_PI.testBit i)) := by
  refine ⟨requestRecord name mode packet_info,
    requests_eq ioctl fd name mode packet_info hmode hname, ?_, ?_, ?_, ?_, ?_⟩
  · by_cases hp : packet_info = 0 <;> simp [requestRecord, hp]
  · by_cases hp : packet_info = 0 <;> rcases hmode with h | h <;> subst h <;>
      simp [requestRecord, hp, IFF_TUN, IFF_TAP, IFF_NO_PI]
  · by_cases hp : packet_info = 0 <;> rcases hmode with h | h <;> subst h <;>
      simp [requestRecord, hp, IFF_TUN, IFF_TAP, IFF_NO_PI] <;> decide
  · by_cases hp : packet_info = 0 <;> rcases hmode with h | h <;> subst h <;>
      simp [requestRecord, hp, IFF_TUN, IFF_TAP, IFF_NO_PI] <;> decide
  · intro i
    by_cases hp : packet_info = 0
    · simp [requestRecord, hp, Nat.testBit_lor]
    · simp [requestRecord, hp]

/-- Witness of C5: TAP without packet information asks for flags `0x1002`. -/
theorem request_flags_witness :
    ((2 : Int) = 1 ∨ (2 : Int) = 2) ∧ (15 ≤ longName.length ∨ 0 ∈ longName) ∧
    ∃ ifr : Ifreq,
      (tuntap_setup kernelTun0 3 longName 2 0).requests = [(3, ifr)] ∧
      ifr.ifr_flags = 0x1002 :=
  ⟨by decide, by decide,
    (request_flags kernelTun0 3 longName 2 0 (by decide) (by decide)).elim
      (fun ifr h => ⟨ifr, h.1, h.2.2.1⟩)⟩

/-- C6 (failure path). For a valid mode and a readable name exactly one
request is issued, and when that request answers a negative value the call
returns this very value and the caller's buffer is what it was. -/
theorem failure_path (ioctl : Ioctl) (fd : Int) (name : List Nat)
    (mode packet_info : Int) (hmode : mode = 1 ∨ mode = 2)
    (hname : 15 ≤ name.length ∨ 0 ∈ name) :
    ∃ ifr : Ifreq,
      (tuntap_setup ioctl fd name mode packet_info).requests = [(fd, ifr)] ∧
      ((ioctl fd ifr).1 < 0 →
        (tuntap_setup ioctl fd name mode packet_info).outcome
          = Outcome.returned (ioctl fd ifr).1 ∧
        (tuntap_setup ioctl fd name mode packet_info).name = name ∧
        (tuntap_setup ioctl fd name mode packet_info).requests.length = 1) := by
  refine ⟨requestRecord name mode packet_info,
    requests_eq ioctl fd name mode packet_info hmode hname, ?_⟩
  intro hneg
  rw [setup_failure ioctl fd name mode packet_info hmode hname hneg]
  exact ⟨rfl, rfl, rfl⟩

/-- Witness of C6: a kernel answering `-16` makes the call return `-16` with
the buffer untouched. -/
theorem failure_path_witness :
    ((1 : Int) = 1 ∨ (1 : Int) = 2) ∧ (15 ≤ longName.length ∨ 0 ∈ longName) ∧
    (tuntap_setup kernelBusy 3 longName 1 0).outcome = Outcome.returned (-16) ∧
    (tuntap_setup kernelBusy 3 longName 1 0).name = longName ∧
    (tuntap_setup kernelBusy 3 longName 1 0).requests.length = 1 :=
  ⟨by decide, by decide,
    (failure_path kernelBusy 3 longName 1 0 (by decide) (by decide)).elim
      (fun _ h => h.2 (show (-16 : Int) < 0 by decide))⟩

/-- C7 (invalid mode). A mode other than 1 and 2 ends the call in the failed
assertion, with no request issued and the name buffer as it was; for mode 1
or 2 the call never ends in the assertion. -/
theorem invalid_mode (ioctl : Ioctl) (fd : Int) (name : List Nat)
    (mode packet_info : Int) :
    (mode ≠ 1 → mode ≠ 2 →
      (tuntap_setup ioctl fd name mode packet_info).outcome = Outcome.assertFailed ∧
      (tuntap_setup ioctl fd name mode packet_info).requests = [] ∧
      (tuntap_setup ioctl fd name mode packet_info).name = name) ∧
    (mode = 1 ∨ mode = 2 →
      (tuntap_setup ioctl fd name mode packet_info).outcome ≠ Outcome.assertFailed) := by
  constructor
  · intro h1 h2
    have hm : modeFlags mode = none := by simp [modeFlags, h1, h2]
    simp [tuntap_setup, hm]
  · intro hmode
    unfold tuntap_setup
    simp only [modeFlags_valid hmode]
    repeat' split
    all_goals simp

/-- Witness of C7: mode 3 fails the assertion, mode 1 does not. -/
theorem invalid_mode_witness :
    ((3 : Int) ≠ 1 ∧ (3 : Int) ≠ 2 ∧
      (tuntap_setup kernelTun0 3 longName 3 0).outcome = Outcome.assertFailed ∧
      (tuntap_setup kernelTun0 3 longName 3 0).requests = [] ∧
      (tuntap_setup kernelTun0 3 longName 3 0).name = longName) ∧
    (((1 : Int) = 1 ∨ (1 : Int) = 2) ∧
      (tuntap_setup kernelTun0 3 longName 1 0).outcome ≠ Outcome.assertFailed) :=
  ⟨⟨by decide, by decide,
      (invalid_mode kernelTun0 3 longName 3 0).1 (by decide) (by decide)⟩,
    ⟨by decide, (invalid_mode kernelTun0 3 longName 1 0).2 (by decide)⟩⟩

/-- C2 (output bound). For a name buffer of capacity at least 33, a valid
mode, every `packet_info` and every answer of the kernel, the call makes no
access outside the buffers, the buffer keeps its length, and every byte at
index 33 or above is what it was before the call. -/
theorem output_bound (ioctl : Ioctl) (fd : Int) (name : List Nat)
    (mode packet_info : Int) (hmode : mode = 1 ∨ mode = 2)
    (hcap : 33 ≤ name.length) :
    (tuntap_setup ioctl fd name mode packet_info).outcome ≠ Outcome.undefined ∧
    (tuntap_setup ioctl fd name mode packet_info).name.length = name.length ∧
    ∀ i : Nat, 33 ≤ i →
      (tuntap_setup ioctl fd name mode packet_info).name[i]? = name[i]? := by
  by_cases hneg : (ioctl fd (requestRecord name mode packet_info)).1 < 0
  · rw [setup_failure ioctl fd name mode packet_info hmode (Or.inl (by omega)) hneg]
    exact ⟨by simp, rfl, fun _ _ => rfl⟩
  · rw [setup_success ioctl fd name mode packet_info hmode hcap hneg]
    have h := copy_out_frame (ioctl fd (requestRecord name mode packet_info)).2.bytes
      name hcap
    exact ⟨by simp, h.1, h.2.1⟩

/-- Witness of C2 on the 40-byte buffer without NUL and a kernel that fills
the whole name field. -/
theorem output_bound_witness :
    ((1 : Int) = 1 ∨ (1 : Int) = 2) ∧ 33 ≤ longName.length ∧
    (tuntap_setup kernelFull 3 longName 1 0).outcome ≠ Outcome.undefined ∧
    (tuntap_setup kernelFull 3 longName 1 0).name.length = longName.length ∧
    ∀ i : Nat, 33 ≤ i →
      (tuntap_setup kernelFull 3 longName 1 0).name[i]? = longName[i]? :=
  ⟨by decide, by decide, output_bound kernelFull 3 longName 1 0 (by decide) (by decide)⟩

/-- C3 (name copy-out). For a valid mode and a buffer of capacity at least
33, exactly one request is issued, and when it answers a non-negative value
and leaves a name field that holds a NUL, the call returns 0 and the string
in the caller's buffer is exactly the string of that name field. -/
theorem copy_out_name (ioctl : Ioctl) (fd : Int) (name : List Nat)
    (mode packet_info : Int) (hmode : mode = 1 ∨ mode = 2)
    (hcap : 33 ≤ name.length) :
    ∃ ifr : Ifreq,
      (tuntap_setup ioctl fd name mode packet_info).requests = [(fd, ifr)] ∧
      (0 ≤ (ioctl fd ifr).1 → 0 ∈ (ioctl fd ifr).2.bytes →
        (tuntap_setup ioctl fd name mode packet_info).outcome = Outcome.returned 0 ∧
        0 ∈ (tuntap_setup ioctl fd name mode packet_info).name ∧
        cstr (tuntap_setup ioctl fd name mode packet_info).name
          = cstr (ioctl fd ifr).2.bytes) := by
  refine ⟨requestRecord name mode packet_info,
    requests_eq ioctl fd name mode packet_info hmode (Or.inl (by omega)), ?_⟩
  intro hpos h0
  rw [setup_success ioctl fd name mode packet_info hmode hcap (by omega)]
  have hf := copy_out_frame (ioctl fd (requestRecord name mode packet_info)).2.bytes
    name hcap
  exact ⟨rfl, zero_mem_of_zero_at _ 32 hf.2.2,
    copy_out_cstr _ name (ioctl fd (requestRecord name mode packet_info)).2.size_eq h0⟩

/-- Witness of C3: the kernel names the interface "tun0" and the caller
reads "tun0", none of the forty letters `A` that were in the buffer. -/
theorem copy_out_name_witness :
    ((1 : Int) = 1 ∨ (1 : Int) = 2) ∧ 33 ≤ longName.length ∧
    (tuntap_setup kernelTun0 3 longName 1 0).outcome = Outcome.returned 0 ∧
    0 ∈ (tuntap_setup kernelTun0 3 longName 1 0).name ∧
    cstr (tuntap_setup kernelTun0 3 longName 1 0).name = [116, 117, 110, 48] :=
  ⟨by decide, by decide,
    (copy_out_name kernelTun0 3 longName 1 0 (by decide) (by decide)).elim
      (fun _ h => h.2 (show (0 : Int) ≤ 0 by decide)
        (show 0 ∈ [116, 117, 110, 48, 0, 0, 0, 0, 0, 0, 0, 0, 0, 0, 0, 0] by decide))⟩

/-- C4 (termination of the returned name). For a valid mode and a buffer of
capacity at least 33, exactly one request is issued, and when it answers a
non-negative value, whatever name field it leaves, the call returns 0, the
byte at index 32 of the buffer is 0, and the string the caller reads has at
most 32 characters. -/
theorem returned_name_terminated (ioctl : Ioctl) (fd : Int) (name : List Nat)
    (mode packet_info : Int) (hmode : mode = 1 ∨ mode = 2)
    (hcap : 33 ≤ name.length) :
    ∃ ifr : Ifreq,
      (tuntap_setup ioctl fd name mode packet_info).requests = [(fd, ifr)] ∧
      (0 ≤ (ioctl fd ifr).1 →
        (tuntap_setup ioctl fd name mode packet_info).outcome = Outcome.returned 0 ∧
        (tuntap_setup ioctl fd name mode packet_info).name[32]? = some 0 ∧
        0 ∈ (tuntap_setup ioctl fd name mode packet_info).name ∧
        strlen (tuntap_setup ioctl fd name mode packet_info).name ≤ 32) := by
  refine ⟨requestRecord name mode packet_info,
    requests_eq ioctl fd name mode packet_info hmode (Or.inl (by omega)), ?_⟩
  intro hpos
  rw [setup_success ioctl fd name mode packet_info hmode hcap (by omega)]
  have hf := copy_out_frame (ioctl fd (requestRecord name mode packet_info)).2.bytes
    name hcap
  exact ⟨rfl, hf.2.2, zero_mem_of_zero_at _ 32 hf.2.2, strlen_le_of_zero_at _ 32 hf.2.2⟩

/-- Witness of C4: the kernel leaves a name field without NUL, and the
buffer still ends at index 32. -/
theorem returned_name_terminated_witness :
    ((2 : Int) = 1 ∨ (2 : Int) = 2) ∧ 33 ≤ longName.length ∧
    (tuntap_setup kernelFull 3 longName 2 1).outcome = Outcome.returned 0 ∧
    (tuntap_setup kernelFull 3 longName 2 1).name[32]? = some 0 ∧
    0 ∈ (tuntap_setup kernelFull 3 longName 2 1).name ∧
    strlen (tuntap_setup kernelFull 3 longName 2 1).name ≤ 32 :=
  ⟨by decide, by decide,
    (returned_name_terminated kernelFull 3 longName 2 1 (by decide) (by decide)).elim
      (fun _ h => h.2 (show (0 : Int) ≤ 7 by decide))⟩

end Linux

namespace Apple

/-! ## Kernel-control variant: the steps of `tuntap_setup` -/

/-- The copy of the control name into the zeroed record stays inside both buffers. -/
theorem ctl_name_copy :
    strncpy (List.replicate MAX_KCTL_NAME 0) UTUN_CONTROL_NAME (strlen UTUN_CONTROL_NAME)
      = some utunInfo.ctl_name := by
  decide

/-- The function as a chain of three guarded system calls. -/
theorem bind_eq (env : Env) (os : OS) (num : Nat) :
    tuntap_setup env os num =
      if env.socket < 0 then
        { outcome := .returned env.socket
          os := os.socket PF_SYSTEM SOCK_DGRAM SYSPROTO_CONTROL env.socket }
      else if (env.resolve env.socket utunInfo).1 < 0 then
        { outcome := .returned (env.resolve env.socket utunInfo).1
          os := (((os.socket PF_SYSTEM SOCK_DGRAM SYSPROTO_CONTROL env.socket).ioctl
            env.socket utunInfo (env.resolve env.socket utunInfo).1).close env.socket) }
      else if env.connect env.socket
          (controlAddr (env.resolve env.socket utunInfo).2 num) < 0 then
        { outcome := .returned (env.connect env.socket
            (controlAddr (env.resolve env.socket utunInfo).2 num))
          os := ((((os.socket PF_SYSTEM SOCK_DGRAM SYSPROTO_CONTROL env.socket).ioctl
            env.socket utunInfo (env.resolve env.socket utunInfo).1).connect env.socket
            (controlAddr (env.resolve env.socket utunInfo).2 num)
            (env.connect env.socket
              (controlAddr (env.resolve env.socket utunInfo).2 num))).close env.socket) }
      else
        { outcome := .returned env.socket
          os := (((os.socket PF_SYSTEM SOCK_DGRAM SYSPROTO_CONTROL env.socket).ioctl
            env.socket utunInfo (env.resolve env.socket utunInfo).1).connect env.socket
            (controlAddr (env.resolve env.socket utunInfo).2 num)
            (env.connect env.socket
              (controlAddr (env.resolve env.socket utunInfo).2 num))) } := by
  unfold tuntap_setup
  simp only [ctl_name_copy]
  rfl

/-! ## Kernel-control variant: the claims -/

/-- C9 (ordered short-circuit and result). The calls are `socket`, then the
resolve `ioctl`, then `connect`, and the first negative answer ends the
call with that answer as result: after a failed `socket` nothing else is
called; after a failed resolve the socket is closed and `connect` is not
called; after a failed `connect` the socket is closed; and when the three
answers are non-negative the result is the handle `socket` answered and
nothing is closed. -/
theorem ordered_short_circuit (env : Env) (os : OS) (num : Nat) :
    (env.socket < 0 →
      (tuntap_setup env os num).outcome = Outcome.returned env.socket ∧
      (tuntap_setup env os num).os.log = os.log ++
        [Event.socket PF_SYSTEM SOCK_DGRAM SYSPROTO_CONTROL env.socket]) ∧
    (0 ≤ env.socket → (env.resolve env.socket utunInfo).1 < 0 →
      (tuntap_setup env os num).outcome
        = Outcome.returned (env.resolve env.socket utunInfo).1 ∧
      (tuntap_setup env os num).os.log = os.log ++
        [Event.socket PF_SYSTEM SOCK_DGRAM SYSPROTO_CONTROL env.socket,
         Event.ioctl env.socket utunInfo (env.resolve env.socket utunInfo).1,
         Event.close env.socket]) ∧
    (0 ≤ env.socket → 0 ≤ (env.resolve env.socket utunInfo).1 →
      env.connect env.socket (controlAddr (env.resolve env.socket utunInfo).2 num) < 0 →
      (tuntap_setup env os num).outcome = Outcome.returned
        (env.connect env.socket (controlAddr (env.resolve env.socket utunInfo).2 num)) ∧
      (tuntap_setup env os num).os.log = os.log ++
        [Event.socket PF_SYSTEM SOCK_DGRAM SYSPROTO_CONTROL env.socket,
         Event.ioctl env.socket utunInfo (env.resolve env.socket utunInfo).1,
         Event.connect env.socket (controlAddr (env.resolve env.socket utunInfo).2 num)
           (env.connect env.socket (controlAddr (env.resolve env.socket utunInfo).2 num)),
         Event.close env.socket]) ∧
    (0 ≤ env.socket → 0 ≤ (env.resolve env.socket utunInfo).1 →
      0 ≤ env.connect env.socket (controlAddr (env.resolve env.socket utunInfo).2 num) →
      (tuntap_setup env os num).outcome = Outcome.returned env.socket ∧
      (tuntap_setup env os num).os.log = os.log ++
        [Event.socket PF_SYSTEM SOCK_DGRAM SYSPROTO_CONTROL env.socket,
         Event.ioctl env.socket utunInfo (env.resolve env.socket utunInfo).1,
         Event.connect env.socket (controlAddr (env.resolve env.socket utunInfo).2 num)
           (env.connect env.socket
             (controlAddr (env.resolve env.socket utunInfo).2 num))]) := by
  refine ⟨?_, ?_, ?_, ?_⟩
  · intro h1
    rw [bind_eq, if_pos h1]
    simp [OS.socket]
  · intro h1 h2
    rw [bind_eq, if_neg (by omega), if_pos h2]
    simp [OS.socket, OS.ioctl, OS.close]
  · intro h1 h2 h3
    rw [bind_eq, if_neg (by omega), if_neg (by omega), if_pos h3]
    simp [OS.socket, OS.ioctl, OS.connect, OS.close]
  · intro h1 h2 h3
    rw [bind_eq, if_neg (by omega), if_neg (by omega), if_neg (by omega)]
    simp [OS.socket, OS.ioctl, OS.connect]

/-- Witness of C9: the four paths, each on an operating system that takes it. -/
theorem ordered_short_circuit_witness :
    (envNoSocket.socket < 0 ∧
      (tuntap_setup envNoSocket os0 0).outcome = Outcome.returned (-1) ∧
      (tuntap_setup envNoSocket os0 0).os.log =
        [Event.socket PF_SYSTEM SOCK_DGRAM SYSPROTO_CONTROL (-1)]) ∧
    ((envNoControl.resolve envNoControl.socket utunInfo).1 < 0 ∧
      (tuntap_setup envNoControl os0 0).outcome = Outcome.returned (-1) ∧
      (tuntap_setup envNoControl os0 0).os.log =
        [Event.socket PF_SYSTEM SOCK_DGRAM SYSPROTO_CONTROL 3,
         Event.ioctl 3 utunInfo (-1), Event.close 3]) ∧
    (envInUse.connect 3 (controlAddr { utunInfo with ctl_id := 7 } 0) < 0 ∧
      (tuntap_setup envInUse os0 0).outcome = Outcome.returned (-1) ∧
      (tuntap_setup envInUse os0 0).os.log =
        [Event.socket PF_SYSTEM SOCK_DGRAM SYSPROTO_CONTROL 3,
         Event.ioctl 3 utunInfo 0,
         Event.connect 3 (controlAddr { utunInfo with ctl_id := 7 } 0) (-1),
         Event.close 3]) ∧
    (0 ≤ envOk.connect 3 (controlAddr { utunInfo with ctl_id := 7 } 0) ∧
      (tuntap_setup envOk os0 0).outcome = Outcome.returned 3 ∧
      (tuntap_setup envOk os0 0).os.log =
        [Event.socket PF_SYSTEM SOCK_DGRAM SYSPROTO_CONTROL 3,
         Event.ioctl 3 utunInfo 0,
         Event.connect 3 (controlAddr { utunInfo with ctl_id := 7 } 0) 0]) :=
  ⟨⟨by decide, (ordered_short_circuit envNoSocket os0 0).1 (by decide)⟩,
    ⟨by decide, (ordered_short_circuit envNoControl os0 0).2.1 (by decide) (by decide)⟩,
    ⟨by decide,
      (ordered_short_circuit envInUse os0 0).2.2.1 (by decide) (by decide) (by decide)⟩,
    ⟨by decide,
      (ordered_short_circuit envOk os0 0).2.2.2 (by decide) (by decide) (by decide)⟩⟩

/-- C8 (no leaked socket). When the handle that `socket` answers, if any,
was not among the open handles before, the call returns a value. If that
value is negative, the set of open handles is the set before the call, the
socket that was opened has been closed exactly once and no other handle has
been closed. If it is not negative, it is the handle `socket` answered, the
set of open handles is the former set with this one new handle, the handle
is connected, and nothing has been closed. -/
theorem no_leaked_socket (env : Env) (os : OS) (num : Nat)
    (hfresh : 0 ≤ env.socket → env.socket ∉ os.handles) :
    ∃ v : Int,
      (tuntap_setup env os num).outcome = Outcome.returned v ∧
      (v < 0 →
        (tuntap_setup env os num).os.handles = os.handles ∧
        ∀ fd : Int,
          ((tuntap_setup env os num).os.log.drop os.log.length).count (Event.close fd)
            = if 0 ≤ env.socket ∧ fd = env.socket then 1 else 0) ∧
      (0 ≤ v →
        v = env.socket ∧
        v ∉ os.handles ∧
        (tuntap_setup env os num).os.handles = insert v os.handles ∧
        v ∈ (tuntap_setup env os num).os.connected ∧
        ∀ fd : Int,
          Event.close fd ∉ (tuntap_setup env os num).os.log.drop os.log.length) := by
  rw [bind_eq]
  by_cases h1 : env.socket < 0
  · rw [if_pos h1]
    refine ⟨env.socket, rfl, ?_, fun h => absurd h (by omega)⟩
    intro _
    have hn : ¬ (0 ≤ env.socket) := by omega
    simp [OS.socket, hn]
  · have h1p : 0 ≤ env.socket := by omega
    have hf := hfresh h1p
    rw [if_neg h1]
    by_cases h2 : (env.resolve env.socket utunInfo).1 < 0
    · rw [if_pos h2]
      refine ⟨_, rfl, ?_, fun h => absurd h (by omega)⟩
      intro _
      refine ⟨?_, ?_⟩
      · simp [OS.socket, OS.ioctl, OS.close, h1p, Finset.erase_insert hf]
      · intro fd
        by_cases hfd : fd = env.socket
        · simp [OS.socket, OS.ioctl, OS.close, h1p, hfd]
        · simp [OS.socket, OS.ioctl, OS.close, h1p, hfd]
    · rw [if_neg h2]
      by_cases h3 : env.connect env.socket
          (controlAddr (env.resolve env.socket utunInfo).2 num) < 0
      · rw [if_pos h3]
        refine ⟨_, rfl, ?_, fun h => absurd h (by omega)⟩
        intro _
        refine ⟨?_, ?_⟩
        · simp [OS.socket, OS.ioctl, OS.connect, OS.close, h1p, Finset.erase_insert hf]
        · intro fd
          by_cases hfd : fd = env.socket
          · simp [OS.socket, OS.ioctl, OS.connect, OS.close, h1p, hfd]
          · simp [OS.socket, OS.ioctl, OS.connect, OS.close, h1p, hfd]
      · rw [if_neg h3]
        have h3p : 0 ≤ env.connect env.socket
            (controlAddr (env.resolve env.socket utunInfo).2 num) := by omega
        refine ⟨env.socket, rfl, fun h => absurd h (by omega), ?_⟩
        intro _
        refine ⟨rfl, hf, ?_, ?_, ?_⟩
        · simp [OS.socket, OS.ioctl, OS.connect, h1p]
        · simp [OS.socket, OS.ioctl, OS.connect, h3p]
        · intro fd
          simp [OS.socket, OS.ioctl, OS.connect]

/-- Witness of C8: the unit is in use, handle 3 is opened and closed, and
the open handles are again the three standard streams. -/
theorem no_leaked_socket_witness :
    (0 ≤ envInUse.socket → envInUse.socket ∉ os0.handles) ∧
    ∃ v : Int,
      (tuntap_setup envInUse os0 5).outcome = Outcome.returned v ∧
      (v < 0 →
        (tuntap_setup envInUse os0 5).os.handles = os0.handles ∧
        ∀ fd : Int,
          ((tuntap_setup envInUse os0 5).os.log.drop os0.log.length).count (Event.close fd)
            = if 0 ≤ envInUse.socket ∧ fd = envInUse.socket then 1 else 0) ∧
      (0 ≤ v →
        v = envInUse.socket ∧
        v ∉ os0.handles ∧
        (tuntap_setup envInUse os0 5).os.handles = insert v os0.handles ∧
        v ∈ (tuntap_setup envInUse os0 5).os.connected ∧
        ∀ fd : Int,
          Event.close fd ∉ (tuntap_setup envInUse os0 5).os.log.drop os0.log.length) :=
  ⟨by decide, no_leaked_socket envInUse os0 5 (by decide)⟩

/-- C10, as amended (unit offset). Every `connect` the call makes is on the
handle `socket` answered, after the resolve request on that handle, with an
address whose id is the control id the resolve request left and whose unit
is `num + 1` reduced modulo `2 ^ 32`, which is `num + 1` whenever
`num + 1 < 2 ^ 32`; and `connect` is made whenever `socket` and the resolve
request both succeed. -/
theorem unit_offset_mod (env : Env) (os : OS) (num : Nat) :
    (∀ (fd : Int) (addr : SockaddrCtl) (r : Int),
      Event.connect fd addr r ∈ (tuntap_setup env os num).os.log.drop os.log.length →
        fd = env.socket ∧
        addr.sc_unit = (num + 1) % 2 ^ 32 ∧
        (num + 1 < 2 ^ 32 → addr.sc_unit = num + 1) ∧
        addr.sc_id = (env.resolve env.socket utunInfo).2.ctl_id ∧
        Event.ioctl env.socket utunInfo (env.resolve env.socket utunInfo).1
          ∈ (tuntap_setup env os num).os.log.drop os.log.length) ∧
    (0 ≤ env.socket → 0 ≤ (env.resolve env.socket utunInfo).1 →
      ∃ (addr : SockaddrCtl) (r : Int),
        Event.connect env.socket addr r
          ∈ (tuntap_setup env os num).os.log.drop os.log.length) := by
  have hunit : num + 1 < 2 ^ 32 → (num + 1) % 2 ^ 32 = num + 1 :=
    fun h => Nat.mod_eq_of_lt h
  rw [bind_eq]
  by_cases h1 : env.socket < 0
  · rw [if_pos h1]
    refine ⟨?_, fun h => absurd h (by omega)⟩
    intro fd addr r hmem
    simp [OS.socket] at hmem
  · rw [if_neg h1]
    by_cases h2 : (env.resolve env.socket utunInfo).1 < 0
    · rw [if_pos h2]
      refine ⟨?_, fun _ h => absurd h (by omega)⟩
      intro fd addr r hmem
      simp [OS.socket, OS.ioctl, OS.close] at hmem
    · rw [if_neg h2]
      by_cases h3 : env.connect env.socket
          (controlAddr (env.resolve env.socket utunInfo).2 num) < 0
      · rw [if_pos h3]
        refine ⟨?_, fun _ _ => ⟨controlAddr (env.resolve env.socket utunInfo).2 num,
          env.connect env.socket (controlAddr (env.resolve env.socket utunInfo).2 num), ?_⟩⟩
        · intro fd addr r hmem
          simp [OS.socket, OS.ioctl, OS.connect, OS.close] at hmem
          obtain ⟨hfd, haddr, -⟩ := hmem
          subst hfd haddr
          refine ⟨rfl, rfl, hunit, rfl, ?_⟩
          simp [OS.socket, OS.ioctl, OS.connect, OS.close]
        · simp [OS.socket, OS.ioctl, OS.connect, OS.close]
      · rw [if_neg h3]
        refine ⟨?_, fun _ _ => ⟨controlAddr (env.resolve env.socket utunInfo).2 num,
          env.connect env.socket (controlAddr (env.resolve env.socket utunInfo).2 num), ?_⟩⟩
        · intro fd addr r hmem
          simp [OS.socket, OS.ioctl, OS.connect] at hmem
          obtain ⟨hfd, haddr, -⟩ := hmem
          subst hfd haddr
          refine ⟨rfl, rfl, hunit, rfl, ?_⟩
          simp [OS.socket, OS.ioctl, OS.connect]
        · simp [OS.socket, OS.ioctl, OS.connect]

/-- Witness of C10 as amended: unit number 7 is connected as unit 8 of
control id 7. -/
theorem unit_offset_mod_witness :
    Event.connect 3 (controlAddr { utunInfo with ctl_id := 7 } 7) 0
      ∈ (tuntap_setup envOk os0 7).os.log.drop os0.log.length ∧
    (7 + 1 < 2 ^ 32) ∧
    (controlAddr { utunInfo with ctl_id := 7 } 7).sc_unit = 7 + 1 ∧
    (controlAddr { utunInfo with ctl_id := 7 } 7).sc_id = 7 :=
  ⟨by decide, by decide,
    ((unit_offset_mod envOk os0 7).1 3 _ 0 (by decide)).2.2.1 (by decide),
    ((unit_offset_mod envOk os0 7).1 3 _ 0 (by decide)).2.2.2.1⟩

/-- C10 as stated fails: for the unit number `2 ^ 32 - 1` the address handed
to `connect` has unit 0, not `num + 1`. -/
theorem unit_offset_counterexample :
    ¬ ∀ (env : Env) (os : OS) (num : Nat), num < 2 ^ 32 →
      ∀ (fd : Int) (addr : SockaddrCtl) (r : Int),
        Event.connect fd addr r ∈ (tuntap_setup env os num).os.log.drop os.log.length →
          addr.sc_unit = num + 1 := by
  intro h
  have h0 := h envOk os0 4294967295 (by decide) 3
    (controlAddr { utunInfo with ctl_id := 7 } 4294967295) 0 (by decide)
  revert h0
  decide

end Apple

end NeUtils
